import Mathlib

/-!
Shallow embedding of the frankenstein_generation pipeline core
(capability registry, excerpt-bank sampling strategies, composition
orchestrator, validation/matching metrics, persisted batch formats),
translated from the Python source under src/, together with proofs of
the specified properties.

Modelling conventions:
* Python dicts are association lists `List (String × _)` in insertion
  order; Python sets of strings are `Finset String` or lists where the
  iteration order matters for the embedded computation.
* Python floats are embedded as exact rationals `ℚ`: every metric the
  code computes is a single division or harmonic mean of divisions.
* `datetime` values are opaque numeric timestamps (`Nat`).
* The global `random` generator is an abstract stream of naturals: a
  structure holding a stream `g : Nat → Nat` and a position.  Each
  primitive draw consumes one stream element; `random.seed(s)` replaces
  the stream by a concrete pseudo-random stream determined by `s` alone.
  Structural theorems quantify over all streams.
-/

/-- JSON values, the target of `model_dump_json` and the source of
`model_validate_json` in the persisted batch formats. -/
inductive Json where
  | null : Json
  | bool : Bool → Json
  | num : ℚ → Json
  | str : String → Json
  | arr : List Json → Json
  | obj : List (String × Json) → Json
deriving Inhabited

/-- Decode a JSON number back into a natural-number timestamp. -/
def asNat (q : ℚ) : Option Nat :=
  if q.den = 1 ∧ 0 ≤ q.num then some q.num.toNat else none

/-- Decode each element of a JSON array, failing if any element fails. -/
def decodeListAux (dec : Json → Option α) : List Json → Option (List α)
  | [] => some []
  | j :: rest =>
    match dec j, decodeListAux dec rest with
    | some a, some as => some (a :: as)
    | _, _ => none

/-- `ExcerptReference` from `pipeline/tasks/classification/models.py`:
one excerpt with a back-reference to its source text. -/
structure ExcerptReference where
  excerpt : String
  source_text_id : String
  task : String
  label : String
  reasoning : String
  additional_fields : List (String × Json)
deriving Inhabited

def encodeExcerptReference (e : ExcerptReference) : Json :=
  .obj [("excerpt", .str e.excerpt),
        ("source_text_id", .str e.source_text_id),
        ("task", .str e.task),
        ("label", .str e.label),
        ("reasoning", .str e.reasoning),
        ("additional_fields", .obj e.additional_fields)]

def decodeExcerptReference : Json → Option ExcerptReference
  | .obj [("excerpt", .str a), ("source_text_id", .str b), ("task", .str c),
          ("label", .str d), ("reasoning", .str e), ("additional_fields", .obj f)] =>
    some ⟨a, b, c, d, e, f⟩
  | _ => none

def decodeStr : Json → Option String
  | .str s => some s
  | _ => none

/-- `ExcerptBank` from `pipeline/tasks/classification/models.py`:
label-centric index of excerpts, built from extraction results. -/
structure ExcerptBank where
  label_index : List (String × List ExcerptReference)
  built_at : Nat
  source_batch_ids : List String
deriving Inhabited

/-- `ExcerptBank.get_excerpts`: all excerpts for a label (empty when absent). -/
def ExcerptBank.get_excerpts (b : ExcerptBank) (label : String) : List ExcerptReference :=
  (b.label_index.lookup label).getD []

/-- `ExcerptBank.list_labels`: all labels in the bank, in index order. -/
def ExcerptBank.list_labels (b : ExcerptBank) : List String :=
  b.label_index.map (·.1)

def encodeLabelIndex (idx : List (String × List ExcerptReference)) : List (String × Json) :=
  idx.map (fun p => (p.1, Json.arr (p.2.map encodeExcerptReference)))

def decodeLabelIndex : List (String × Json) → Option (List (String × List ExcerptReference))
  | [] => some []
  | (k, .arr js) :: rest =>
    match decodeListAux decodeExcerptReference js, decodeLabelIndex rest with
    | some refs, some more => some ((k, refs) :: more)
    | _, _ => none
  | _ => none

def encodeExcerptBank (b : ExcerptBank) : Json :=
  .obj [("label_index", .obj (encodeLabelIndex b.label_index)),
        ("built_at", .num (b.built_at : ℚ)),
        ("source_batch_ids", .arr (b.source_batch_ids.map Json.str))]

def decodeExcerptBank : Json → Option ExcerptBank
  | .obj [("label_index", .obj idx), ("built_at", .num t),
          ("source_batch_ids", .arr ids)] =>
    match decodeLabelIndex idx, asNat t, decodeListAux decodeStr ids with
    | some i, some n, some l => some ⟨i, n, l⟩
    | _, _, _ => none
  | _ => none

/-- `source` field of `ExtractionMetadata`: `Literal["organic","synthetic"]`. -/
inductive MetaSource where
  | organic : MetaSource
  | synthetic : MetaSource
deriving Inhabited, DecidableEq

def encodeMetaSource : MetaSource → Json
  | .organic => .str "organic"
  | .synthetic => .str "synthetic"

def decodeMetaSource : Json → Option MetaSource
  | .str "organic" => some .organic
  | .str "synthetic" => some .synthetic
  | _ => none

/-- `ExtractionMetadata` from `pipeline/tasks/classification/models.py`. -/
structure ExtractionMetadata where
  source : MetaSource
  processed_at : Nat
  tasks_applied : List String
deriving Inhabited

def encodeExtractionMetadata (m : ExtractionMetadata) : Json :=
  .obj [("source", encodeMetaSource m.source),
        ("processed_at", .num (m.processed_at : ℚ)),
        ("tasks_applied", .arr (m.tasks_applied.map Json.str))]

def decodeExtractionMetadata : Json → Option ExtractionMetadata
  | .obj [("source", s), ("processed_at", .num t), ("tasks_applied", .arr l)] =>
    match decodeMetaSource s, asNat t, decodeListAux decodeStr l with
    | some ms, some n, some ts => some ⟨ms, n, ts⟩
    | _, _, _ => none
  | _ => none

/-- `ExtractedText` from `pipeline/tasks/classification/models.py`:
one text with all its extracted task data. -/
structure ExtractedText where
  text_id : String
  original_text : String
  results : List (String × Json)
  metadata : ExtractionMetadata
deriving Inhabited

def encodeExtractedText (t : ExtractedText) : Json :=
  .obj [("text_id", .str t.text_id),
        ("original_text", .str t.original_text),
        ("results", .obj t.results),
        ("metadata", encodeExtractionMetadata t.metadata)]

def decodeExtractedText : Json → Option ExtractedText
  | .obj [("text_id", .str tid), ("original_text", .str ot),
          ("results", .obj rs), ("metadata", md)] =>
    match decodeExtractionMetadata md with
    | some m => some ⟨tid, ot, rs, m⟩
    | none => none
  | _ => none

/-- `ExtractionBatch` from `pipeline/tasks/classification/models.py`, the
primary output of extraction; `save` (`model_dump_json`) and `load`
(`model_validate_json`) are embedded as `encode` / `decode`. -/
structure ExtractionBatch where
  batch_id : String
  texts : List ExtractedText
  created_at : Nat
deriving Inhabited

def encodeExtractionBatch (b : ExtractionBatch) : Json :=
  .obj [("batch_id", .str b.batch_id),
        ("texts", .arr (b.texts.map encodeExtractedText)),
        ("created_at", .num (b.created_at : ℚ))]

def decodeExtractionBatch : Json → Option ExtractionBatch
  | .obj [("batch_id", .str bid), ("texts", .arr ts), ("created_at", .num c)] =>
    match decodeListAux decodeExtractedText ts, asNat c with
    | some texts, some n => some ⟨bid, texts, n⟩
    | _, _ => none
  | _ => none

/-- `ExcerptSet` from `pipeline/tasks/generation/models.py`: a set of
excerpts to be composed into one synthetic text, with parallel
provenance lists and the full requested label combination. -/
structure ExcerptSet where
  excerpts : List String
  source_labels : List String
  source_text_ids : List String
  target_labels : List String
deriving Inhabited, DecidableEq

/-- `CompositionOutput` from `pipeline/tasks/generation/models.py`. -/
structure CompositionOutput where
  composed_text : String
  coherence_notes : String
deriving Inhabited, DecidableEq

/-- `SyntheticText` from `pipeline/tasks/generation/models.py`: a
synthetic text with provenance metadata. -/
structure SyntheticText where
  text_id : String
  text : String
  source_excerpts : List String
  source_labels : List String
  source_text_ids : List String
  target_labels : List String
  coherence_notes : String
  created_at : Nat
deriving Inhabited, DecidableEq

def encodeSyntheticText (t : SyntheticText) : Json :=
  .obj [("text_id", .str t.text_id),
        ("text", .str t.text),
        ("source_excerpts", .arr (t.source_excerpts.map Json.str)),
        ("source_labels", .arr (t.source_labels.map Json.str)),
        ("source_text_ids", .arr (t.source_text_ids.map Json.str)),
        ("target_labels", .arr (t.target_labels.map Json.str)),
        ("coherence_notes", .str t.coherence_notes),
        ("created_at", .num (t.created_at : ℚ))]

def decodeSyntheticText : Json → Option SyntheticText
  | .obj [("text_id", .str tid), ("text", .str tx),
          ("source_excerpts", .arr se), ("source_labels", .arr sl),
          ("source_text_ids", .arr si), ("target_labels", .arr tl),
          ("coherence_notes", .str cn), ("created_at", .num c)] =>
    match decodeListAux decodeStr se, decodeListAux decodeStr sl,
          decodeListAux decodeStr si, decodeListAux decodeStr tl, asNat c with
    | some a, some b, some d, some e, some n => some ⟨tid, tx, a, b, d, e, cn, n⟩
    | _, _, _, _, _ => none
  | _ => none

def encodeOptStr : Option String → Json
  | none => .null
  | some s => .str s

def decodeOptStr : Json → Option (Option String)
  | .null => some none
  | .str s => some (some s)
  | _ => none

/-- `SyntheticBatch` from `pipeline/tasks/generation/models.py`. -/
structure SyntheticBatch where
  batch_id : String
  texts : List SyntheticText
  source_excerpt_bank : Option String
  created_at : Nat
deriving Inhabited, DecidableEq

def encodeSyntheticBatch (b : SyntheticBatch) : Json :=
  .obj [("batch_id", .str b.batch_id),
        ("texts", .arr (b.texts.map encodeSyntheticText)),
        ("source_excerpt_bank", encodeOptStr b.source_excerpt_bank),
        ("created_at", .num (b.created_at : ℚ))]

def decodeSyntheticBatch : Json → Option SyntheticBatch
  | .obj [("batch_id", .str bid), ("texts", .arr ts),
          ("source_excerpt_bank", sb), ("created_at", .num c)] =>
    match decodeListAux decodeSyntheticText ts, decodeOptStr sb, asNat c with
    | some texts, some bank, some n => some ⟨bid, texts, bank, n⟩
    | _, _, _ => none
  | _ => none

/-- `LabelMatch` from `pipeline/tasks/validation/models.py`: result of
matching expected vs detected labels (stored as lists). -/
structure LabelMatch where
  expected : List String
  detected : List String
  matched : List String
  missed : List String
  extra : List String
  match_ratio : ℚ
deriving Inhabited, DecidableEq

def encodeLabelMatch (m : LabelMatch) : Json :=
  .obj [("expected", .arr (m.expected.map Json.str)),
        ("detected", .arr (m.detected.map Json.str)),
        ("matched", .arr (m.matched.map Json.str)),
        ("missed", .arr (m.missed.map Json.str)),
        ("extra", .arr (m.extra.map Json.str)),
        ("match_ratio", .num m.match_ratio)]

def decodeLabelMatch : Json → Option LabelMatch
  | .obj [("expected", .arr e), ("detected", .arr d), ("matched", .arr ma),
          ("missed", .arr mi), ("extra", .arr ex), ("match_ratio", .num r)] =>
    match decodeListAux decodeStr e, decodeListAux decodeStr d,
          decodeListAux decodeStr ma, decodeListAux decodeStr mi,
          decodeListAux decodeStr ex with
    | some a, some b, some c, some f, some g => some ⟨a, b, c, f, g, r⟩
    | _, _, _, _, _ => none
  | _ => none

def encodeOptLabelMatch : Option LabelMatch → Json
  | none => .null
  | some m => encodeLabelMatch m

def decodeOptLabelMatch : Json → Option (Option LabelMatch)
  | .null => some none
  | j => (decodeLabelMatch j).map some

/-- `ValidatedText` from `pipeline/tasks/validation/models.py`. -/
structure ValidatedText where
  text_id : String
  text : String
  source_labels : List String
  target_labels : List String
  validation_results : List (String × Json)
  label_match : Option LabelMatch
  is_valid : Bool
deriving Inhabited

def encodeValidatedText (t : ValidatedText) : Json :=
  .obj [("text_id", .str t.text_id),
        ("text", .str t.text),
        ("source_labels", .arr (t.source_labels.map Json.str)),
        ("target_labels", .arr (t.target_labels.map Json.str)),
        ("validation_results", .obj t.validation_results),
        ("label_match", encodeOptLabelMatch t.label_match),
        ("is_valid", .bool t.is_valid)]

def decodeValidatedText : Json → Option ValidatedText
  | .obj [("text_id", .str tid), ("text", .str tx),
          ("source_labels", .arr sl), ("target_labels", .arr tl),
          ("validation_results", .obj vr), ("label_match", lm),
          ("is_valid", .bool v)] =>
    match decodeListAux decodeStr sl, decodeListAux decodeStr tl,
          decodeOptLabelMatch lm with
    | some a, some b, some m => some ⟨tid, tx, a, b, vr, m, v⟩
    | _, _, _ => none
  | _ => none

/-- `ValidationBatch` from `pipeline/tasks/validation/models.py`, with
its aggregate metrics. -/
structure ValidationBatch where
  batch_id : String
  source_synthetic_batch_id : String
  texts : List ValidatedText
  tasks_used : List String
  created_at : Nat
  total_texts : Nat
  valid_count : Nat
  validation_rate : ℚ
  avg_match_ratio : ℚ
deriving Inhabited

def encodeValidationBatch (b : ValidationBatch) : Json :=
  .obj [("batch_id", .str b.batch_id),
        ("source_synthetic_batch_id", .str b.source_synthetic_batch_id),
        ("texts", .arr (b.texts.map encodeValidatedText)),
        ("tasks_used", .arr (b.tasks_used.map Json.str)),
        ("created_at", .num (b.created_at : ℚ)),
        ("total_texts", .num (b.total_texts : ℚ)),
        ("valid_count", .num (b.valid_count : ℚ)),
        ("validation_rate", .num b.validation_rate),
        ("avg_match_ratio", .num b.avg_match_ratio)]

def decodeValidationBatch : Json → Option ValidationBatch
  | .obj [("batch_id", .str bid), ("source_synthetic_batch_id", .str sid),
          ("texts", .arr ts), ("tasks_used", .arr tu),
          ("created_at", .num c), ("total_texts", .num tt),
          ("valid_count", .num vc), ("validation_rate", .num vr),
          ("avg_match_ratio", .num am)] =>
    match decodeListAux decodeValidatedText ts, decodeListAux decodeStr tu,
          asNat c, asNat tt, asNat vc with
    | some texts, some tasks, some n, some t, some v =>
      some ⟨bid, sid, texts, tasks, n, t, v, vr, am⟩
    | _, _, _, _, _ => none
  | _ => none

/-!  Random-generator model.  The Python code draws from the module-level
`random` generator; we model it as a stream of naturals together with a
position.  `random.seed(s)` replaces both by a concrete pseudo-random
stream derived from `s` alone (a linear congruential iteration), so a
seeded run is independent of the ambient generator state. -/

structure RNG where
  g : Nat → Nat
  pos : Nat

/-- Draw one raw value from the stream. -/
def RNG.next (r : RNG) : Nat × RNG := (r.g r.pos, ⟨r.g, r.pos + 1⟩)

def lcgStep (s : Nat) : Nat := (1103515245 * s + 12345) % 2147483648

def lcgIter (s : Nat) : Nat → Nat
  | 0 => lcgStep s
  | n + 1 => lcgStep (lcgIter s n)

/-- `random.seed(s)`: the generator state is now a function of `s` alone. -/
def seedRNG (s : Nat) : RNG := ⟨lcgIter s, 0⟩

def applySeed (seed : Option Nat) (r : RNG) : RNG :=
  match seed with
  | some s => seedRNG s
  | none => r

/-- Draw a value in `[0, n)` (used to index a nonempty list). -/
def randBelow (n : Nat) (r : RNG) : Nat × RNG :=
  let (v, r') := r.next
  (v % n, r')

/-- `random.randint(a, b)`: uniform draw from the inclusive range. -/
def randint (a b : Nat) (r : RNG) : Nat × RNG :=
  let (v, r') := r.next
  (a + v % (b + 1 - a), r')

/-- `random.choice(xs)` on a nonempty list (call sites guard emptiness);
`dflt` is returned only for the impossible empty case. -/
def choiceD (xs : List α) (dflt : α) (r : RNG) : α × RNG :=
  let (k, r') := randBelow xs.length r
  (xs.getD k dflt, r')

/-- `random.random() > 0.5`, one draw of the stream mapped to a coin. -/
def coinFlip (r : RNG) : Bool × RNG :=
  let (v, r') := r.next
  (v % 2 == 1, r')

/-- `random.sample(xs, k)`: `k` draws without replacement (by position). -/
def sampleK (xs : List α) (dflt : α) : Nat → RNG → List α × RNG
  | 0, r => ([], r)
  | k + 1, r =>
    if xs.isEmpty then ([], r)
    else
      let (idx, r') := randBelow xs.length r
      let x := xs.getD idx dflt
      let (others, r'') := sampleK (xs.eraseIdx idx) dflt k r'
      (x :: others, r'')

/-!  Capability registry, from `pipeline/tasks/base.py`.  A task class is
a bundle of class attributes; `__init_subclass__` performs registration:
a subclass with a non-`None` `name` must carry `input_model`,
`output_model` and `prompt_fn` (otherwise `ValueError`), and is then
written into the module-level `_registry` dict under its name —
overwriting any existing entry with the same name.  Model and prompt
functions are identified by name here; only their presence matters. -/

structure TaskSpec where
  name : Option String
  input_model : Option String
  output_model : Option String
  prompt_fn : Option String
  category : Option String
deriving Inhabited, DecidableEq

/-- Python dict assignment `d[k] = v`: overwrite in place or append. -/
def setEntry : List (String × TaskSpec) → String → TaskSpec → List (String × TaskSpec)
  | [], n, t => [(n, t)]
  | (k, v) :: rest, n, t =>
    if k = n then (n, t) :: rest else (k, v) :: setEntry rest n t

/-- `BaseTask.__init_subclass__`: the registration step for one subclass
definition, returning the updated registry or the raised error message. -/
def registerTask (reg : List (String × TaskSpec)) (t : TaskSpec) :
    Except String (List (String × TaskSpec)) :=
  match t.name with
  | none => .ok reg
  | some n =>
    if t.input_model.isNone then
      .error ("Task '" ++ n ++ "' must define input_model")
    else if t.output_model.isNone then
      .error ("Task '" ++ n ++ "' must define output_model")
    else if t.prompt_fn.isNone then
      .error ("Task '" ++ n ++ "' must define prompt_fn")
    else .ok (setEntry reg n t)

/-!  Shared sampling primitive `_sample_one_combination` from
`pipeline/tasks/generation/sampling.py`.  The loop over `labels` is
embedded with an explicit accumulator state. -/

structure SampState where
  excerpts : List String
  source_labels : List String
  source_text_ids : List String
  used : List String

def SampState.initial : SampState := ⟨[], [], [], []⟩

/-- The `for label in labels` loop body of `_sample_one_combination`:
filter out already-used sources (when `avoid`), skip an empty bucket,
draw one excerpt, and break once `maxE` excerpts are collected. -/
def sampleLoop (bank : ExcerptBank) (maxE : Nat) (avoid : Bool) :
    List String → SampState → RNG → SampState × RNG
  | [], st, r => (st, r)
  | label :: rest, st, r =>
    let avail0 := bank.get_excerpts label
    let avail := if avoid then
        avail0.filter (fun e => !st.used.contains e.source_text_id)
      else avail0
    if avail.isEmpty then sampleLoop bank maxE avoid rest st r
    else
      let (eref, r') := choiceD avail default r
      let st' : SampState :=
        ⟨st.excerpts ++ [eref.excerpt],
         st.source_labels ++ [label],
         st.source_text_ids ++ [eref.source_text_id],
         st.used ++ [eref.source_text_id]⟩
      if maxE ≤ st'.excerpts.length then (st', r')
      else sampleLoop bank maxE avoid rest st' r'

/-- `_sample_one_combination(bank, labels, max_excerpts, avoid_same_source)`:
returns `none` exactly when zero excerpts were collected, otherwise the
`ExcerptSet` whose `target_labels` is the full requested list. -/
def sample_one_combination (bank : ExcerptBank) (labels : List String)
    (maxE : Nat) (avoid : Bool) (r : RNG) : Option ExcerptSet × RNG :=
  let (st, r') := sampleLoop bank maxE avoid labels SampState.initial r
  if st.excerpts.isEmpty then (none, r')
  else (some ⟨st.excerpts, st.source_labels, st.source_text_ids, labels⟩, r')

/-- One iteration of the `for _ in range(n_samples)` loop of
`sample_random_combinations`: draw a label count, draw that many
distinct labels, call the shared primitive. -/
def randomOne (bank : ExcerptBank) (minL maxL maxE : Nat) (avoid : Bool)
    (r : RNG) : Option ExcerptSet × RNG :=
  let avail := bank.list_labels
  let (nLabels, r1) := randint minL (min maxL avail.length) r
  let (labels, r2) := sampleK avail "" nLabels r1
  sample_one_combination bank labels maxE avoid r2

def randomLoop (bank : ExcerptBank) (minL maxL maxE : Nat) (avoid : Bool) :
    Nat → RNG → List ExcerptSet × RNG
  | 0, r => ([], r)
  | n + 1, r =>
    let (es?, r1) := randomOne bank minL maxL maxE avoid r
    let (rest, r2) := randomLoop bank minL maxL maxE avoid n r1
    (match es? with
     | some es => es :: rest
     | none => rest, r2)

/-- `sample_random_combinations` from
`pipeline/tasks/generation/sampling.py`. -/
def sample_random_combinations (bank : ExcerptBank) (nSamples minL maxL maxE : Nat)
    (avoid : Bool) (seed : Option Nat) (r : RNG) : List ExcerptSet × RNG :=
  let r := applySeed seed r
  if bank.list_labels.isEmpty then ([], r)
  else randomLoop bank minL maxL maxE avoid nSamples r

/-!  Underrepresented-biased strategy, `sample_underrepresented_combinations`
from `pipeline/tasks/generation/sampling.py`. -/

def insertSorted (n : Nat) : List Nat → List Nat
  | [] => [n]
  | m :: rest => if n ≤ m then n :: m :: rest else m :: insertSorted n rest

/-- `counts.sort()`, ascending. -/
def sortAsc (xs : List Nat) : List Nat := xs.foldr insertSorted []

/-- `threshold_idx = int(len(counts) * threshold_percentile / 100)`:
the float product truncated toward zero (= floor, both factors being
nonnegative). -/
def thresholdIdx (n : Nat) (pct : ℚ) : Nat :=
  (((n : ℚ) * pct) / 100).floor.toNat

/-- The threshold computation: `counts` sorted ascending,
`threshold = counts[threshold_idx] if threshold_idx < len(counts) else counts[-1]`. -/
def thresholdOf (counts : List Nat) (pct : ℚ) : Nat :=
  let sorted := sortAsc counts
  let idx := thresholdIdx counts.length pct
  if idx < sorted.length then sorted.getD idx 0
  else sorted.getD (sorted.length - 1) 0

/-- The rare-label computation: labels whose supplied count is at or
below the threshold value and which are present in the bank, in
`label_counts` insertion order. -/
def rareLabels (label_counts : List (String × Nat)) (bank : ExcerptBank)
    (pct : ℚ) : List String :=
  let thr := thresholdOf (label_counts.map (·.2)) pct
  (label_counts.filter
    (fun p => p.2 ≤ thr && bank.list_labels.contains p.1)).map (·.1)

/-- The label-drawing part of one iteration of the
`sample_underrepresented_combinations` loop: 1–2 rare labels without
replacement, then — when the remaining pool is nonempty and a coin
lands heads — one extra label drawn from `avail` minus the labels
already selected (`list(available_labels - set(labels))`). -/
def underOneLabels (rare avail : List String) (r : RNG) : List String × RNG :=
  let (nRare, r1) := randint 1 (min 2 rare.length) r
  let (labels0, r2) := sampleK rare "" nRare r1
  let others := avail.filter (fun l => !labels0.contains l)
  if others.isEmpty then (labels0, r2)
  else
    let (coin, r3) := coinFlip r2
    if coin then
      let (extra, r4) := choiceD others "" r3
      (labels0 ++ [extra], r4)
    else (labels0, r3)

def underLoop (bank : ExcerptBank) (rare : List String) (maxE : Nat)
    (avoid : Bool) : Nat → RNG → List ExcerptSet × RNG
  | 0, r => ([], r)
  | n + 1, r =>
    let (labels, r1) := underOneLabels rare bank.list_labels r
    let (es?, r2) := sample_one_combination bank labels maxE avoid r1
    let (rest, r3) := underLoop bank rare maxE avoid n r2
    (match es? with
     | some es => es :: rest
     | none => rest, r3)

/-- `sample_underrepresented_combinations`; on an empty `label_counts`
or an empty rare set it degrades to `sample_random_combinations` with
its default label bounds (1 and 3), re-passing the seed. -/
def sample_underrepresented_combinations (bank : ExcerptBank)
    (label_counts : List (String × Nat)) (nSamples : Nat) (pct : ℚ)
    (maxE : Nat) (avoid : Bool) (seed : Option Nat) (r : RNG) :
    List ExcerptSet × RNG :=
  let r := applySeed seed r
  if label_counts.isEmpty then
    sample_random_combinations bank nSamples 1 3 maxE true seed r
  else
    let rare := rareLabels label_counts bank pct
    if rare.isEmpty then
      sample_random_combinations bank nSamples 1 3 maxE true seed r
    else underLoop bank rare maxE avoid nSamples r

/-!  Validation metrics.

`run_validation` in `pipeline/tasks/validation/runner.py` computes, per
artifact, `matched = expected & detected`, `missed = expected -
detected`, `extra = detected - expected` and `match_ratio =
len(matched)/len(expected) if expected else 1.0`.

`Validator.validate_single` in `synth_data_pipeline/core/validation.py`
computes over the same matched/missed/extra sets `precision =
len(matched)/len(predicted) if predicted else 0.0`, `recall =
len(matched)/len(target) if target_labels else 0.0` and `f1 =
2*p*r/(p+r) if (p+r) > 0 else 0.0`. -/

structure LabelMatchSets where
  expected : Finset String
  detected : Finset String
  matched : Finset String
  missed : Finset String
  extra : Finset String
  ratio : ℚ

/-- The per-artifact label match of `run_validation`. -/
def computeLabelMatch (expected detected : Finset String) : LabelMatchSets :=
  { expected := expected
    detected := detected
    matched := expected ∩ detected
    missed := expected \ detected
    extra := detected \ expected
    ratio := if expected = ∅ then 1 else
      ((expected ∩ detected).card : ℚ) / expected.card }

/-- `precision` of `Validator.validate_single`. -/
def precisionOf (target predicted : Finset String) : ℚ :=
  if predicted = ∅ then 0 else ((target ∩ predicted).card : ℚ) / predicted.card

/-- `recall` of `Validator.validate_single` (note: `0.0`, not `1.0`,
when the target set is empty). -/
def recallOf (target predicted : Finset String) : ℚ :=
  if target = ∅ then 0 else ((target ∩ predicted).card : ℚ) / target.card

/-- `f1` of `Validator.validate_single`. -/
def f1Of (target predicted : Finset String) : ℚ :=
  let p := precisionOf target predicted
  let r := recallOf target predicted
  if 0 < p + r then 2 * p * r / (p + r) else 0

/-!  Composition orchestrator, `run_composition` from
`pipeline/tasks/generation/runner.py`.  The execution engine
(`run_task` with the registered composition capability and the external
backend behind it) is a parameter producing one optional output per
input set; `uuid` and `datetime.now()` are environment inputs. -/

/-- `f"{n:04d}"`: decimal digits left-padded with zeros to width 4. -/
def pad4 (n : Nat) : String :=
  let s := toString n
  String.mk (List.replicate (4 - s.length) '0') ++ s

/-- Build one `SyntheticText` from the enumeration index `i`, the
originating `ExcerptSet` and the engine output. -/
def mkSynthText (now : Nat) (i : Nat) (s : ExcerptSet) (out : CompositionOutput) :
    SyntheticText :=
  { text_id := "synthetic_" ++ pad4 (i + 1)
    text := out.composed_text
    source_excerpts := s.excerpts
    source_labels := s.source_labels
    source_text_ids := s.source_text_ids
    target_labels := s.target_labels
    coherence_notes := out.coherence_notes
    created_at := now }

/-- The `for i, (excerpt_set, result) in enumerate(zip(...))` loop with
its `continue` on `None` results. -/
def buildSynthTexts (now : Nat) : Nat → List (ExcerptSet × Option CompositionOutput) →
    List SyntheticText
  | _, [] => []
  | i, (_, none) :: rest => buildSynthTexts now (i + 1) rest
  | i, (s, some out) :: rest => mkSynthText now i s out :: buildSynthTexts now (i + 1) rest

/-- `run_composition` on pre-built excerpt sets: the returned flag
records whether the execution engine was invoked at all. -/
def run_composition (sets : List ExcerptSet)
    (engine : List ExcerptSet → List (Option CompositionOutput))
    (batchId : String) (now : Nat) : SyntheticBatch × Bool :=
  if sets.isEmpty then
    ({ batch_id := batchId, texts := [], source_excerpt_bank := none,
       created_at := now }, false)
  else
    let results := engine sets
    let texts := buildSynthTexts now 0 (sets.zip results)
    ({ batch_id := batchId, texts := texts, source_excerpt_bank := none,
       created_at := now }, true)

/-- `sample_by_label_combination` skips a combination when any of its
labels is missing from the bank, else makes `nPer` independent calls to
the shared primitive (from `pipeline/tasks/generation/sampling.py`). -/
def comboLoop (bank : ExcerptBank) (labels : List String) (maxE : Nat)
    (avoid : Bool) : Nat → RNG → List ExcerptSet × RNG
  | 0, r => ([], r)
  | n + 1, r =>
    let (es?, r1) := sample_one_combination bank labels maxE avoid r
    let (rest, r2) := comboLoop bank labels maxE avoid n r1
    (match es? with
     | some es => es :: rest
     | none => rest, r2)

def targetedLoop (bank : ExcerptBank) (nPer maxE : Nat) (avoid : Bool) :
    List (List String) → RNG → List ExcerptSet × RNG
  | [], r => ([], r)
  | labels :: more, r =>
    if labels.any (fun l => !bank.list_labels.contains l) then
      targetedLoop bank nPer maxE avoid more r
    else
      let (here, r1) := comboLoop bank labels maxE avoid nPer r
      let (rest, r2) := targetedLoop bank nPer maxE avoid more r1
      (here ++ rest, r2)

def sample_by_label_combination (bank : ExcerptBank)
    (label_combinations : List (List String)) (nPer maxE : Nat) (avoid : Bool)
    (seed : Option Nat) (r : RNG) : List ExcerptSet × RNG :=
  let r := applySeed seed r
  targetedLoop bank nPer maxE avoid label_combinations r

/-!  Concrete fixtures used by scenario conjuncts, counterexamples and
witnesses. -/

def fref1 : ExcerptReference := ⟨"fx1", "s1", "alerts", "fraud", "", []⟩

def fref2 : ExcerptReference := ⟨"fx2", "s2", "alerts", "fraud", "", []⟩

def fref3 : ExcerptReference := ⟨"fx3", "s3", "alerts", "fraud", "", []⟩

def pref1 : ExcerptReference := ⟨"px1", "s4", "alerts", "profanity", "", []⟩

def pref2 : ExcerptReference := ⟨"px2", "s5", "alerts", "profanity", "", []⟩

/-- The §8 scenario bank: three `fraud` excerpts from three distinct
sources and two `profanity` excerpts from two distinct sources. -/
def bankS : ExcerptBank :=
  ⟨[("fraud", [fref1, fref2, fref3]), ("profanity", [pref1, pref2])], 0, []⟩

/-- A bank holding a single `fraud` excerpt and no `profanity` bucket. -/
def bankT : ExcerptBank := ⟨[("fraud", [fref1])], 0, []⟩

/-- The excerpt set produced from `bankT` for the request
`["fraud", "profanity"]`: the `profanity` label is skipped, yet it stays
in `target_labels`. -/
def esT : ExcerptSet := ⟨["fx1"], ["fraud"], ["s1"], ["fraud", "profanity"]⟩

def taskA1 : TaskSpec :=
  ⟨some "alerts", some "TextInput", some "AlertsOutput",
   some "get_alerts_prompt", some "classification"⟩

def taskA2 : TaskSpec :=
  ⟨some "alerts", some "TextInput", some "OtherOutput",
   some "other_prompt", some "classification"⟩

def taskBad : TaskSpec := ⟨some "bad", none, some "Out", some "p", none⟩

def aref : ExcerptReference := ⟨"xa", "sa", "alerts", "a", "", []⟩

def bref : ExcerptReference := ⟨"xb", "sb", "alerts", "b", "", []⟩

def cref : ExcerptReference := ⟨"xc", "sc", "alerts", "c", "", []⟩

/-- Bank with labels `a`, `b`, `c`, one excerpt each, distinct sources. -/
def bankC : ExcerptBank :=
  ⟨[("a", [aref]), ("b", [bref]), ("c", [cref])], 0, []⟩

/-- Corpus counts making `a` and `b` rare at the 25th percentile. -/
def countsC : List (String × Nat) := [("a", 1), ("b", 1), ("c", 10)]

/-- A concrete draw stream: nRare-draw 0 (→ 1 rare label), pick index 0
(→ `a`), coin 1 (→ heads, append an extra label), pick index 0 of the
remaining pool (→ `b`), then zeros. -/
def gC : Nat → Nat := fun i => [0, 0, 1, 0].getD i 0

def rC : RNG := ⟨gC, 0⟩

/-- An all-zeros draw stream. -/
def g0 : Nat → Nat := fun _ => 0

def r0 : RNG := ⟨g0, 0⟩

/-- The excerpt set sampled from `bankT` for the request `["fraud"]`. -/
def esW : ExcerptSet := ⟨["fx1"], ["fraud"], ["s1"], ["fraud"]⟩

theorem asNat_natCast (n : Nat) : asNat (n : ℚ) = some n := by
  simp [asNat]

theorem decodeListAux_map (dec : Json → Option α) (enc : α → Json)
    (h : ∀ a, dec (enc a) = some a) (l : List α) :
    decodeListAux dec (l.map enc) = some l := by
  induction l with
  | nil => rfl
  | cons a rest ih => simp [decodeListAux, h a, ih]

theorem decodeExcerptReference_enc (e : ExcerptReference) :
    decodeExcerptReference (encodeExcerptReference e) = some e := rfl

theorem decodeStr_enc (s : String) : decodeStr (Json.str s) = some s := rfl

theorem decodeLabelIndex_enc (idx : List (String × List ExcerptReference)) :
    decodeLabelIndex (encodeLabelIndex idx) = some idx := by
  induction idx with
  | nil => rfl
  | cons p rest ih =>
    simp [encodeLabelIndex, decodeLabelIndex,
      decodeListAux_map decodeExcerptReference encodeExcerptReference
        decodeExcerptReference_enc, ih, encodeLabelIndex] at ih ⊢

theorem decodeExcerptBank_enc (b : ExcerptBank) :
    decodeExcerptBank (encodeExcerptBank b) = some b := by
  simp [encodeExcerptBank, decodeExcerptBank, decodeLabelIndex_enc, asNat_natCast,
    decodeListAux_map decodeStr Json.str decodeStr_enc]

theorem decodeMetaSource_enc (m : MetaSource) :
    decodeMetaSource (encodeMetaSource m) = some m := by
  cases m <;> rfl

theorem decodeExtractionMetadata_enc (m : ExtractionMetadata) :
    decodeExtractionMetadata (encodeExtractionMetadata m) = some m := by
  simp [encodeExtractionMetadata, decodeExtractionMetadata, decodeMetaSource_enc,
    asNat_natCast, decodeListAux_map decodeStr Json.str decodeStr_enc]

theorem decodeExtractedText_enc (t : ExtractedText) :
    decodeExtractedText (encodeExtractedText t) = some t := by
  simp [encodeExtractedText, decodeExtractedText, decodeExtractionMetadata_enc]

theorem decodeExtractionBatch_enc (b : ExtractionBatch) :
    decodeExtractionBatch (encodeExtractionBatch b) = some b := by
  simp [encodeExtractionBatch, decodeExtractionBatch, asNat_natCast,
    decodeListAux_map decodeExtractedText encodeExtractedText decodeExtractedText_enc]

theorem decodeSyntheticText_enc (t : SyntheticText) :
    decodeSyntheticText (encodeSyntheticText t) = some t := by
  simp [encodeSyntheticText, decodeSyntheticText, asNat_natCast,
    decodeListAux_map decodeStr Json.str decodeStr_enc]

theorem decodeOptStr_enc (o : Option String) :
    decodeOptStr (encodeOptStr o) = some o := by
  cases o <;> rfl

theorem decodeSyntheticBatch_enc (b : SyntheticBatch) :
    decodeSyntheticBatch (encodeSyntheticBatch b) = some b := by
  simp [encodeSyntheticBatch, decodeSyntheticBatch, asNat_natCast, decodeOptStr_enc,
    decodeListAux_map decodeSyntheticText encodeSyntheticText decodeSyntheticText_enc]

theorem decodeLabelMatch_enc (m : LabelMatch) :
    decodeLabelMatch (encodeLabelMatch m) = some m := by
  simp [encodeLabelMatch, decodeLabelMatch,
    decodeListAux_map decodeStr Json.str decodeStr_enc]

theorem decodeOptLabelMatch_enc (o : Option LabelMatch) :
    decodeOptLabelMatch (encodeOptLabelMatch o) = some o := by
  cases o with
  | none => rfl
  | some m =>
    have h2 : decodeOptLabelMatch (encodeLabelMatch m)
        = (decodeLabelMatch (encodeLabelMatch m)).map some := rfl
    show decodeOptLabelMatch (encodeLabelMatch m) = some (some m)
    rw [h2, decodeLabelMatch_enc m]
    rfl

theorem decodeValidatedText_enc (t : ValidatedText) :
    decodeValidatedText (encodeValidatedText t) = some t := by
  simp [encodeValidatedText, decodeValidatedText, decodeOptLabelMatch_enc,
    decodeListAux_map decodeStr Json.str decodeStr_enc]

theorem decodeValidationBatch_enc (b : ValidationBatch) :
    decodeValidationBatch (encodeValidationBatch b) = some b := by
  simp [encodeValidationBatch, decodeValidationBatch, asNat_natCast,
    decodeListAux_map decodeValidatedText encodeValidatedText decodeValidatedText_enc,
    decodeListAux_map decodeStr Json.str decodeStr_enc]

theorem choiceD_mem (xs : List α) (d : α) (r : RNG) (h : xs ≠ []) :
    (choiceD xs d r).1 ∈ xs := by
  have hlen : 0 < xs.length := List.length_pos.mpr h
  have hlt : (r.g r.pos) % xs.length < xs.length := Nat.mod_lt _ hlen
  simp only [choiceD, randBelow, RNG.next]
  rw [List.getD_eq_getElem xs d hlt]
  exact List.getElem_mem hlt

theorem sampleLoop_used_inv (bank : ExcerptBank) (maxE : Nat)
    (labels : List String) :
    ∀ st r, (∀ id ∈ st.source_text_ids, id ∈ st.used) →
      st.source_text_ids.Nodup →
      (∀ id ∈ (sampleLoop bank maxE true labels st r).1.source_text_ids,
          id ∈ (sampleLoop bank maxE true labels st r).1.used) ∧
      (sampleLoop bank maxE true labels st r).1.source_text_ids.Nodup := by
  induction labels with
  | nil => intro st r h1 h2; exact ⟨h1, h2⟩
  | cons label rest ih =>
    intro st r h1 h2
    simp only [sampleLoop, if_true]
    set avail := (bank.get_excerpts label).filter
      (fun e => !st.used.contains e.source_text_id) with havail
    by_cases he : avail.isEmpty = true
    · simp only [if_pos he]
      exact ih st r h1 h2
    · simp only [if_neg he]
      have hne : avail ≠ [] := by
        intro hc; rw [hc] at he; exact he rfl
      have hmem : (choiceD avail default r).1 ∈ avail := choiceD_mem avail default r hne
      have hnotused : (choiceD avail default r).1.source_text_id ∉ st.used := by
        have := List.of_mem_filter hmem
        simpa using this
      have hnotin : (choiceD avail default r).1.source_text_id ∉ st.source_text_ids := by
        intro hc; exact hnotused (h1 _ hc)
      set eref := (choiceD avail default r).1 with heref
      have h1' : ∀ id ∈ st.source_text_ids ++ [eref.source_text_id],
          id ∈ st.used ++ [eref.source_text_id] := by
        intro id hid
        rcases List.mem_append.mp hid with h | h
        · exact List.mem_append.mpr (Or.inl (h1 _ h))
        · exact List.mem_append.mpr (Or.inr h)
      have h2' : (st.source_text_ids ++ [eref.source_text_id]).Nodup := by
        simp [List.nodup_append, h2, hnotin]
      by_cases hbreak : maxE ≤ (st.excerpts ++ [eref.excerpt]).length
      · simp only [if_pos hbreak]
        exact ⟨h1', h2'⟩
      · simp only [if_neg hbreak]
        exact ih _ _ h1' h2'

theorem sampleLoop_shape (bank : ExcerptBank) (maxE : Nat) (avoid : Bool)
    (labels : List String) :
    ∀ st r, ∃ ls es ids us,
      ls.Sublist labels ∧
      (sampleLoop bank maxE avoid labels st r).1 =
        ⟨st.excerpts ++ es, st.source_labels ++ ls,
         st.source_text_ids ++ ids, st.used ++ us⟩ ∧
      es.length = ls.length ∧ ids.length = ls.length := by
  induction labels with
  | nil =>
    intro st r
    exact ⟨[], [], [], [], List.Sublist.refl _, by simp [sampleLoop], rfl, rfl⟩
  | cons label rest ih =>
    intro st r
    simp only [sampleLoop]
    set avail := (if avoid then
        (bank.get_excerpts label).filter
          (fun e => !st.used.contains e.source_text_id)
      else bank.get_excerpts label) with havail
    by_cases he : avail.isEmpty = true
    · simp only [if_pos he]
      obtain ⟨ls, es, ids, us, hsub, heq, hl1, hl2⟩ := ih st r
      exact ⟨ls, es, ids, us, hsub.cons label, heq, hl1, hl2⟩
    · simp only [if_neg he]
      set eref := (choiceD avail default r).1 with heref
      set st' : SampState :=
        ⟨st.excerpts ++ [eref.excerpt], st.source_labels ++ [label],
         st.source_text_ids ++ [eref.source_text_id],
         st.used ++ [eref.source_text_id]⟩ with hst'
      by_cases hbreak : maxE ≤ st'.excerpts.length
      · simp only [if_pos hbreak]
        exact ⟨[label], [eref.excerpt], [eref.source_text_id],
          [eref.source_text_id],
          (List.nil_sublist rest).cons₂ label, rfl, rfl, rfl⟩
      · simp only [if_neg hbreak]
        obtain ⟨ls, es, ids, us, hsub, heq, hl1, hl2⟩ := ih st' (choiceD avail default r).2
        refine ⟨label :: ls, eref.excerpt :: es, eref.source_text_id :: ids,
          eref.source_text_id :: us, hsub.cons₂ label, ?_, by simp [hl1], by simp [hl2]⟩
        rw [heq]
        simp [hst']

theorem sampleLoop_le (bank : ExcerptBank) (maxE : Nat) (avoid : Bool)
    (labels : List String) :
    ∀ st r, st.excerpts.length < maxE →
      (sampleLoop bank maxE avoid labels st r).1.excerpts.length ≤ maxE := by
  induction labels with
  | nil =>
    intro st r h
    simpa [sampleLoop] using h.le
  | cons label rest ih =>
    intro st r h
    simp only [sampleLoop]
    set avail := (if avoid then
        (bank.get_excerpts label).filter
          (fun e => !st.used.contains e.source_text_id)
      else bank.get_excerpts label) with havail
    by_cases he : avail.isEmpty = true
    · simp only [if_pos he]
      exact ih st r h
    · simp only [if_neg he]
      set eref := (choiceD avail default r).1 with heref
      set st' : SampState :=
        ⟨st.excerpts ++ [eref.excerpt], st.source_labels ++ [label],
         st.source_text_ids ++ [eref.source_text_id],
         st.used ++ [eref.source_text_id]⟩ with hst'
      by_cases hbreak : maxE ≤ st'.excerpts.length
      · simp only [if_pos hbreak]
        simp only [hst'] at hbreak
        simp only [List.length_append, List.length_cons, List.length_nil] at hbreak ⊢
        omega
      · simp only [if_neg hbreak]
        exact ih st' (choiceD avail default r).2 (by omega)

theorem sample_one_combination_none_iff (bank : ExcerptBank)
    (labels : List String) (maxE : Nat) (avoid : Bool) (r : RNG) :
    (sample_one_combination bank labels maxE avoid r).1 = none ↔
      (sampleLoop bank maxE avoid labels SampState.initial r).1.excerpts = [] := by
  simp only [sample_one_combination]
  by_cases h : (sampleLoop bank maxE avoid labels SampState.initial r).1.excerpts.isEmpty = true
  · simp only [if_pos h]
    simp [List.isEmpty_iff] at h
    simp [h]
  · simp only [if_neg h]
    simp [List.isEmpty_iff] at h
    simp [h]

theorem sample_one_combination_some (bank : ExcerptBank)
    (labels : List String) (maxE : Nat) (avoid : Bool) (r : RNG)
    (es : ExcerptSet) (r' : RNG)
    (h : sample_one_combination bank labels maxE avoid r = (some es, r')) :
    ∃ st, sampleLoop bank maxE avoid labels SampState.initial r = (st, r') ∧
      st.excerpts ≠ [] ∧
      es = ⟨st.excerpts, st.source_labels, st.source_text_ids, labels⟩ := by
  obtain ⟨st, r2, hsl⟩ :
      ∃ st r2, sampleLoop bank maxE avoid labels SampState.initial r = (st, r2) :=
    ⟨_, _, rfl⟩
  simp only [sample_one_combination, hsl] at h
  by_cases hE : st.excerpts.isEmpty = true
  · rw [if_pos hE] at h
    exact absurd (congrArg Prod.fst h) (by simp)
  · rw [if_neg hE] at h
    rw [Prod.mk.injEq] at h
    obtain ⟨ha, hb⟩ := h
    refine ⟨st, ?_, ?_, ?_⟩
    · rw [hsl, hb]
    · simpa [List.isEmpty_iff] using hE
    · exact (Option.some.inj ha).symm

theorem sampleK_subset (d : α) :
    ∀ (k : Nat) (xs : List α) (r : RNG), (sampleK xs d k r).1 ⊆ xs := by
  intro k
  induction k with
  | zero => intro xs r; simp [sampleK]
  | succ k ih =>
    intro xs r
    by_cases he : xs.isEmpty = true
    · simp [sampleK, he]
    · simp only [sampleK, if_neg he]
      intro x hx
      rcases List.mem_cons.mp hx with h | h
      · subst h
        have hne : xs ≠ [] := by
          intro hc; rw [hc] at he; exact he rfl
        have hlen : 0 < xs.length := List.length_pos.mpr hne
        have hlt : (r.g r.pos) % xs.length < xs.length := Nat.mod_lt _ hlen
        simp only [randBelow, RNG.next]
        rw [List.getD_eq_getElem xs d hlt]
        exact List.getElem_mem hlt
      · exact (List.eraseIdx_sublist xs _).subset (ih _ _ h)

theorem sampleK_nodup (d : α) :
    ∀ (k : Nat) (xs : List α) (r : RNG), xs.Nodup → (sampleK xs d k r).1.Nodup := by
  intro k
  induction k with
  | zero => intro xs r _; simp [sampleK]
  | succ k ih =>
    intro xs r hn
    by_cases he : xs.isEmpty = true
    · simp [sampleK, he]
    · simp only [sampleK, if_neg he]
      have hne : xs ≠ [] := by
        intro hc; rw [hc] at he; exact he rfl
      have hlen : 0 < xs.length := List.length_pos.mpr hne
      simp only [randBelow, RNG.next]
      have hlt : (r.g r.pos) % xs.length < xs.length := Nat.mod_lt _ hlen
      rw [List.getD_eq_getElem xs d hlt]
      refine List.Pairwise.cons ?_ (ih _ _ (hn.eraseIdx _))
      intro y hy hxy
      have hnotmem : xs[(r.g r.pos) % xs.length] ∉
          xs.eraseIdx ((r.g r.pos) % xs.length) := by
        rw [List.mem_eraseIdx_iff_getElem]
        rintro ⟨j, hj, hji, heq⟩
        exact hji (List.Nodup.getElem_inj_iff hn |>.mp heq)
      exact hnotmem (hxy ▸ sampleK_subset d k _ _ hy)

theorem sampleK_length (d : α) :
    ∀ (k : Nat) (xs : List α) (r : RNG), k ≤ xs.length →
      (sampleK xs d k r).1.length = k := by
  intro k
  induction k with
  | zero => intro xs r _; simp [sampleK]
  | succ k ih =>
    intro xs r hk
    have hne : xs ≠ [] := by
      intro hc; subst hc; simp at hk
    have he : xs.isEmpty = false := by
      simp [List.isEmpty_iff, hne]
    simp only [sampleK, he, Bool.false_eq_true, if_false, List.length_cons]
    rw [ih]
    have hlen : 0 < xs.length := List.length_pos.mpr hne
    have hlt : ((randBelow xs.length r).1) < xs.length := Nat.mod_lt _ hlen
    rw [List.length_eraseIdx]
    simp only [randBelow, RNG.next] at hlt ⊢
    rw [if_pos hlt]
    omega

theorem buildSynthTexts_length (now : Nat) :
    ∀ (i : Nat) (ps : List (ExcerptSet × Option CompositionOutput)),
      (buildSynthTexts now i ps).length = ps.countP (fun p => p.2.isSome) := by
  intro i ps
  induction ps generalizing i with
  | nil => simp [buildSynthTexts]
  | cons p rest ih =>
    obtain ⟨s, out?⟩ := p
    cases out? with
    | none => simp [buildSynthTexts, ih, List.countP_cons]
    | some out => simp [buildSynthTexts, ih, List.countP_cons]

theorem buildSynthTexts_mem (now : Nat) :
    ∀ (i : Nat) (ps : List (ExcerptSet × Option CompositionOutput))
      (t : SyntheticText),
      t ∈ buildSynthTexts now i ps ↔
        ∃ j s out, ps[j]? = some (s, some out) ∧ t = mkSynthText now (i + j) s out := by
  intro i ps
  induction ps generalizing i with
  | nil => simp [buildSynthTexts]
  | cons p rest ih =>
    intro t
    obtain ⟨s, out?⟩ := p
    cases out? with
    | none =>
      simp only [buildSynthTexts]
      rw [ih (i + 1) t]
      constructor
      · rintro ⟨j, s', out, hj, ht⟩
        refine ⟨j + 1, s', out, by simpa using hj, ?_⟩
        rw [ht]
        congr 1
        omega
      · rintro ⟨j, s', out, hj, ht⟩
        cases j with
        | zero => simp at hj
        | succ j =>
          refine ⟨j, s', out, by simpa using hj, ?_⟩
          rw [ht]
          congr 1
          omega
    | some out =>
      simp only [buildSynthTexts, List.mem_cons]
      rw [ih (i + 1) t]
      constructor
      · rintro (ht | ⟨j, s', out', hj, ht⟩)
        · exact ⟨0, s, out, by simp, by simpa using ht⟩
        · refine ⟨j + 1, s', out', by simpa using hj, ?_⟩
          rw [ht]
          congr 1
          omega
      · rintro ⟨j, s', out', hj, ht⟩
        cases j with
        | zero =>
          left
          simp at hj
          rw [ht, hj.1, hj.2]
          simp
        | succ j =>
          right
          refine ⟨j, s', out', by simpa using hj, ?_⟩
          rw [ht]
          congr 1
          omega

theorem setEntry_lookup (t : TaskSpec) :
    ∀ (reg : List (String × TaskSpec)) (n : String),
      (setEntry reg n t).lookup n = some t := by
  intro reg
  induction reg with
  | nil => intro n; simp [setEntry, List.lookup]
  | cons p rest ih =>
    intro n
    obtain ⟨k, v⟩ := p
    by_cases hk : k = n
    · simp [setEntry, hk, List.lookup]
    · simp only [setEntry, if_neg hk, List.lookup]
      have : (n == k) = false := by
        simp [BEq.beq]
        exact fun hc => hk hc.symm
      simp [this, ih n]

/-- C9: For every persisted batch value x of the batch types (extraction
batch, excerpt bank, synthetic batch, validation batch), saving x to a
path and loading it back (serialization to JSON by `save`/`model_dump_json`
followed by parsing by `load`/`model_validate_json`) reproduces a value
equal to x field-by-field. -/
theorem c9_batch_roundtrip :
    (∀ b : ExtractionBatch, decodeExtractionBatch (encodeExtractionBatch b) = some b) ∧
    (∀ b : ExcerptBank, decodeExcerptBank (encodeExcerptBank b) = some b) ∧
    (∀ b : SyntheticBatch, decodeSyntheticBatch (encodeSyntheticBatch b) = some b) ∧
    (∀ b : ValidationBatch, decodeValidationBatch (encodeValidationBatch b) = some b) :=
  ⟨decodeExtractionBatch_enc, decodeExcerptBank_enc,
   decodeSyntheticBatch_enc, decodeValidationBatch_enc⟩

/-- C8: For every LabelMatch computed by the validation engine, `ratio`
lies in [0,1], `matched ∪ missed = expected`, `matched ∪ extra =
detected`, and `matched ∩ missed = ∅`. -/
theorem c8_label_match_algebra : ∀ e d : Finset String,
    0 ≤ (computeLabelMatch e d).ratio ∧ (computeLabelMatch e d).ratio ≤ 1 ∧
    (computeLabelMatch e d).matched ∪ (computeLabelMatch e d).missed = e ∧
    (computeLabelMatch e d).matched ∪ (computeLabelMatch e d).extra = d ∧
    (computeLabelMatch e d).matched ∩ (computeLabelMatch e d).missed = ∅ := by
  intro e d
  refine ⟨?_, ?_, ?_, ?_, ?_⟩
  · simp only [computeLabelMatch]
    by_cases he : e = ∅
    · simp [he]
    · rw [if_neg he]
      positivity
  · simp only [computeLabelMatch]
    by_cases he : e = ∅
    · simp [he]
    · rw [if_neg he]
      have hpos : 0 < (e.card : ℚ) := by
        have := Finset.card_pos.mpr (Finset.nonempty_iff_ne_empty.mpr he)
        exact_mod_cast this
      rw [div_le_one hpos]
      exact_mod_cast Finset.card_le_card (Finset.inter_subset_left)
  · ext x
    simp only [computeLabelMatch, Finset.mem_union, Finset.mem_inter, Finset.mem_sdiff]
    tauto
  · ext x
    simp only [computeLabelMatch, Finset.mem_union, Finset.mem_inter, Finset.mem_sdiff]
    tauto
  · ext x
    simp only [computeLabelMatch, Finset.mem_inter, Finset.mem_sdiff,
      Finset.not_mem_empty, iff_false]
    tauto

/-- C6: Sampling is deterministic under a fixed seed: two calls of the
same strategy with an identical bank, identical parameters, and the same
non-null seed produce identical output sequences, whatever the ambient
generator state was before each call (the random-combination strategy,
the targeted strategy, and the underrepresented strategy). -/
theorem c6_seed_determinism :
    (∀ (bank : ExcerptBank) (nS mnL mxL mxE : Nat) (av : Bool) (s : Nat)
        (r1 r2 : RNG),
        sample_random_combinations bank nS mnL mxL mxE av (some s) r1 =
        sample_random_combinations bank nS mnL mxL mxE av (some s) r2) ∧
    (∀ (bank : ExcerptBank) (combos : List (List String)) (nPer mxE : Nat)
        (av : Bool) (s : Nat) (r1 r2 : RNG),
        sample_by_label_combination bank combos nPer mxE av (some s) r1 =
        sample_by_label_combination bank combos nPer mxE av (some s) r2) ∧
    (∀ (bank : ExcerptBank) (label_counts : List (String × Nat)) (nS : Nat)
        (pct : ℚ) (mxE : Nat) (av : Bool) (s : Nat) (r1 r2 : RNG),
        sample_underrepresented_combinations bank label_counts nS pct mxE av
          (some s) r1 =
        sample_underrepresented_combinations bank label_counts nS pct mxE av
          (some s) r2) :=
  ⟨fun _ _ _ _ _ _ _ _ _ => rfl, fun _ _ _ _ _ _ _ _ => rfl,
   fun _ _ _ _ _ _ _ _ _ => rfl⟩

/-- C2 counterexample: registering a second task under the
already-present name `"alerts"` does not fail — it succeeds and silently
replaces the existing entry, contrary to the claim that duplicate
registration fails with `DuplicateCapabilityError`. -/
theorem c2_duplicate_counterexample :
    registerTask [("alerts", taskA1)] taskA2 =
      Except.ok [("alerts", taskA2)] ∧ taskA2 ≠ taskA1 :=
  ⟨rfl, by decide⟩

/-- C2 (amended): Registering a named capability missing `input_model`,
`output_model` or `prompt_fn` fails (a `ValueError` naming the missing
field); registering a complete named capability always succeeds, and a
name collision silently replaces the existing entry (the new task is
what `name` resolves to afterwards) — no duplicate error exists. -/
theorem c2_registration :
    (∀ (reg : List (String × TaskSpec)) (t : TaskSpec) (n : String),
        t.name = some n →
        (t.input_model = none →
          registerTask reg t =
            .error ("Task '" ++ n ++ "' must define input_model")) ∧
        (t.input_model ≠ none → t.output_model = none →
          registerTask reg t =
            .error ("Task '" ++ n ++ "' must define output_model")) ∧
        (t.input_model ≠ none → t.output_model ≠ none → t.prompt_fn = none →
          registerTask reg t =
            .error ("Task '" ++ n ++ "' must define prompt_fn")) ∧
        (t.input_model ≠ none → t.output_model ≠ none → t.prompt_fn ≠ none →
          registerTask reg t = .ok (setEntry reg n t))) ∧
    (∀ (reg : List (String × TaskSpec)) (n : String) (t : TaskSpec),
        (setEntry reg n t).lookup n = some t) := by
  constructor
  · intro reg t n hname
    refine ⟨?_, ?_, ?_, ?_⟩
    · intro h1
      simp [registerTask, hname, h1]
    · intro h1 h2
      simp [registerTask, hname, Option.isNone_iff_eq_none, h1, h2]
    · intro h1 h2 h3
      simp [registerTask, hname, Option.isNone_iff_eq_none, h1, h2, h3]
    · intro h1 h2 h3
      simp [registerTask, hname, Option.isNone_iff_eq_none, h1, h2, h3]
  · intro reg n t
    exact setEntry_lookup t reg n

/-- C2 witness: the missing-`input_model` branch at a concrete task. -/
theorem c2_registration_witness :
    registerTask [] taskBad =
      Except.error "Task 'bad' must define input_model" :=
  (c2_registration.1 [] taskBad "bad" rfl).1 rfl

/-- C1 counterexample: in `Validator.validate_single`
(`synth_data_pipeline/core/validation.py`), an empty expected (target)
label set yields `recall = 0.0`, not the claimed `1.0`. -/
theorem c1_recall_empty_counterexample :
    recallOf (∅ : Finset String) {"a"} = 0 ∧
    ¬ recallOf (∅ : Finset String) {"a"} = 1 := by
  constructor
  · simp [recallOf]
  · simp [recallOf]

/-- C1 (amended): `run_validation`'s `match_ratio` is
`|matched|/|expected|`, and `1.0` when `expected` is empty.
`Validator.validate_single`'s `precision` is `|matched|/|detected|`
(`0` when `detected` is empty), its `recall` is `|matched|/|expected|`
when `expected` is nonempty but `0.0` (not `1.0`) when `expected` is
empty — so ratio and recall diverge exactly on empty expected sets —
and its `F1` satisfies the harmonic-mean identity
`f1 * (p + r) = 2 * p * r`, with `f1 = 0` when both are `0`. -/
theorem c1_metrics :
    ∀ t d : Finset String,
      (computeLabelMatch t d).ratio =
        (if t = ∅ then 1 else ((t ∩ d).card : ℚ) / t.card) ∧
      precisionOf t d =
        (if d = ∅ then 0 else ((t ∩ d).card : ℚ) / d.card) ∧
      recallOf t d =
        (if t = ∅ then 0 else ((t ∩ d).card : ℚ) / t.card) ∧
      (t ≠ ∅ → (computeLabelMatch t d).ratio = recallOf t d) ∧
      ((computeLabelMatch ∅ d).ratio = 1 ∧ recallOf ∅ d = 0) ∧
      f1Of t d * (precisionOf t d + recallOf t d) =
        2 * precisionOf t d * recallOf t d ∧
      (precisionOf t d = 0 ∧ recallOf t d = 0 → f1Of t d = 0) := by
  intro t d
  refine ⟨rfl, rfl, rfl, ?_, ⟨by simp [computeLabelMatch], by simp [recallOf]⟩, ?_, ?_⟩
  · intro ht
    simp [computeLabelMatch, recallOf, ht]
  · by_cases hp : 0 < precisionOf t d + recallOf t d
    · simp only [f1Of, if_pos hp]
      field_simp
    · simp only [f1Of, if_neg hp]
      have hP : 0 ≤ precisionOf t d := by
        simp only [precisionOf]
        by_cases hd : d = ∅
        · simp [hd]
        · rw [if_neg hd]; positivity
      have hR : 0 ≤ recallOf t d := by
        simp only [recallOf]
        by_cases ht : t = ∅
        · simp [ht]
        · rw [if_neg ht]; positivity
      have hPz : precisionOf t d = 0 := by
        push_neg at hp
        linarith
      have hRz : recallOf t d = 0 := by
        push_neg at hp
        linarith
      rw [hPz, hRz]
      ring
  · rintro ⟨hP, hR⟩
    simp [f1Of, hP, hR]

/-- C1 witness: the amended statement at `t = ∅`, `d = {"a"}`, where the
divergence is visible: `match_ratio = 1` while `recall = 0`. -/
theorem c1_metrics_witness :
    (computeLabelMatch (∅ : Finset String) {"a"}).ratio = 1 ∧
    recallOf (∅ : Finset String) {"a"} = 0 :=
  (c1_metrics (∅ : Finset String) {"a"}).2.2.2.2.1

/-- C7: `run_composition` produces exactly one SyntheticText per
non-null engine output (count equality), pairs each with its originating
ExcerptSet to fill the provenance fields (the membership
characterization: every output text is `mkSynthText` of its input
position, originating set and engine output, and conversely), drops
null pairs, assigns ids from the running enumeration index, and returns
an empty result without invoking the engine when given zero sets. -/
theorem c7_run_composition :
    (∀ (engine : List ExcerptSet → List (Option CompositionOutput))
        (batchId : String) (now : Nat),
        run_composition [] engine batchId now =
          ({ batch_id := batchId, texts := [], source_excerpt_bank := none,
             created_at := now }, false)) ∧
    (∀ sets (engine : List ExcerptSet → List (Option CompositionOutput))
        batchId now, sets ≠ [] →
        (run_composition sets engine batchId now).2 = true) ∧
    (∀ sets (engine : List ExcerptSet → List (Option CompositionOutput))
        batchId now,
        (run_composition sets engine batchId now).1.texts.length =
          (sets.zip (engine sets)).countP (fun p => p.2.isSome)) ∧
    (∀ sets (engine : List ExcerptSet → List (Option CompositionOutput))
        batchId now t,
        t ∈ (run_composition sets engine batchId now).1.texts ↔
          ∃ i s out, (sets.zip (engine sets))[i]? = some (s, some out) ∧
            t = mkSynthText now i s out) := by
  refine ⟨?_, ?_, ?_, ?_⟩
  · intro engine batchId now
    rfl
  · intro sets engine batchId now hne
    simp [run_composition, List.isEmpty_iff, hne]
  · intro sets engine batchId now
    by_cases hs : sets.isEmpty = true
    · have : sets = [] := List.isEmpty_iff.mp hs
      subst this
      simp [run_composition]
    · simp only [run_composition, if_neg hs]
      exact buildSynthTexts_length now 0 _
  · intro sets engine batchId now t
    by_cases hs : sets.isEmpty = true
    · have : sets = [] := List.isEmpty_iff.mp hs
      subst this
      simp [run_composition]
    · simp only [run_composition, if_neg hs]
      rw [buildSynthTexts_mem now 0 _ t]
      simp

/-- C7 witness: with one set and one non-null engine output, the engine
is invoked. -/
theorem c7_run_composition_witness :
    (run_composition [esT] (fun _ => [some ⟨"composed", ""⟩]) "b1" 0).2 = true :=
  c7_run_composition.2.1 [esT] (fun _ => [some ⟨"composed", ""⟩]) "b1" 0
    (List.cons_ne_nil _ _)

/-- C5: For every ExcerptSet returned by the sampling primitive with
`avoid_same_source = true`, no two excerpts in the set share the same
`source_text_id` (the `source_text_ids` list has no duplicates). -/
theorem c5_source_diversity :
    ∀ (bank : ExcerptBank) (labels : List String) (maxE : Nat) (r : RNG)
      (es : ExcerptSet) (r' : RNG),
      sample_one_combination bank labels maxE true r = (some es, r') →
      es.source_text_ids.Nodup := by
  intro bank labels maxE r es r' h
  obtain ⟨st, hsl, hne, hes⟩ :=
    sample_one_combination_some bank labels maxE true r es r' h
  have hinv := sampleLoop_used_inv bank maxE labels SampState.initial r
    (by simp [SampState.initial]) (by simp [SampState.initial])
  rw [hsl] at hinv
  rw [hes]
  exact hinv.2

/-- C5 witness: the invariant at a concrete bank, request and stream. -/
theorem c5_source_diversity_witness : esW.source_text_ids.Nodup :=
  c5_source_diversity bankT ["fraud"] 3 r0 esW ⟨g0, 1⟩ rfl

/-- C10: For every non-null ExcerptSet returned by the sampling
primitive, `target_labels` equals the full requested label list even
when some requested labels were skipped; hence `source_labels` can be a
strict subsequence of `target_labels` (witnessed by `bankT`, which lacks
a `profanity` bucket), and downstream validation derives its expected
set from `target_labels`, counting the skipped label as missed. -/
theorem c10_target_labels_full :
    (∀ (bank : ExcerptBank) (labels : List String) (maxE : Nat)
        (avoid : Bool) (r : RNG) (es : ExcerptSet) (r' : RNG),
        sample_one_combination bank labels maxE avoid r = (some es, r') →
        es.target_labels = labels) ∧
    (∀ r : RNG, ∃ r',
        sample_one_combination bankT ["fraud", "profanity"] 3 true r =
          (some esT, r')) ∧
    esT.source_labels.Sublist esT.target_labels ∧
    esT.source_labels ≠ esT.target_labels ∧
    "profanity" ∈ (computeLabelMatch esT.target_labels.toFinset ∅).missed := by
  refine ⟨?_, ?_, ?_, ?_, ?_⟩
  · intro bank labels maxE avoid r es r' h
    obtain ⟨st, _, _, hes⟩ :=
      sample_one_combination_some bank labels maxE avoid r es r' h
    rw [hes]
  · intro r
    refine ⟨⟨r.g, r.pos + 1⟩, ?_⟩
    simp [sample_one_combination, sampleLoop, bankT, esT,
      ExcerptBank.get_excerpts, choiceD, randBelow, RNG.next, Nat.mod_one,
      fref1, SampState.initial, List.lookup]
  · exact (List.nil_sublist ["profanity"]).cons₂ "fraud"
  · decide
  · decide

/-- C10 witness: the general half applied at a concrete sampled set. -/
theorem c10_target_labels_witness : esW.target_labels = ["fraud"] :=
  c10_target_labels_full.1 bankT ["fraud"] 3 true r0 esW ⟨g0, 1⟩ rfl

/-- C4: The shared sampling primitive iterates the labels in
caller-supplied order drawing at most one excerpt per label
(`source_labels` is a subsequence of the request), keeps its parallel
lists aligned, returns a nonempty set of at most `max_excerpts`
excerpts when it succeeds, returns null exactly when zero excerpts were
collected, and on the §8 scenario bank (3 `fraud` sources, 2 `profanity`
sources, all distinct) returns exactly 2 excerpts for
`["fraud", "profanity"]` with `max_excerpts = 3` under
source-avoidance, for every draw stream. -/
theorem c4_shared_primitive :
    (∀ (bank : ExcerptBank) (labels : List String) (maxE : Nat)
        (avoid : Bool) (r : RNG) (es : ExcerptSet) (r' : RNG), 1 ≤ maxE →
        sample_one_combination bank labels maxE avoid r = (some es, r') →
        es.source_labels.Sublist labels ∧
        es.excerpts.length = es.source_labels.length ∧
        es.source_text_ids.length = es.source_labels.length ∧
        1 ≤ es.excerpts.length ∧ es.excerpts.length ≤ maxE) ∧
    (∀ (bank : ExcerptBank) (labels : List String) (maxE : Nat)
        (avoid : Bool) (r : RNG),
        (sample_one_combination bank labels maxE avoid r).1 = none ↔
          (sampleLoop bank maxE avoid labels SampState.initial r).1.excerpts = []) ∧
    (∀ r : RNG, ∃ es r',
        sample_one_combination bankS ["fraud", "profanity"] 3 true r =
          (some es, r') ∧
        es.excerpts.length = 2 ∧ es.source_labels = ["fraud", "profanity"]) := by
  refine ⟨?_, sample_one_combination_none_iff, ?_⟩
  · intro bank labels maxE avoid r es r' hmax h
    obtain ⟨st, hsl, hne, hes⟩ :=
      sample_one_combination_some bank labels maxE avoid r es r' h
    obtain ⟨ls, exs, ids, us, hsub, hshape, hl1, hl2⟩ :=
      sampleLoop_shape bank maxE avoid labels SampState.initial r
    rw [hsl] at hshape
    simp only [SampState.initial, List.nil_append] at hshape
    have hshape2 : st = ⟨exs, ls, ids, us⟩ := hshape
    have hex : st.excerpts = exs := by rw [hshape2]
    have hsla : st.source_labels = ls := by rw [hshape2]
    have hids : st.source_text_ids = ids := by rw [hshape2]
    have hle := sampleLoop_le bank maxE avoid labels SampState.initial r
      (by simp [SampState.initial]; omega)
    rw [hsl] at hle
    have hle' : st.excerpts.length ≤ maxE := hle
    subst hes
    refine ⟨?_, ?_, ?_, ?_, ?_⟩
    · show st.source_labels.Sublist labels
      rw [hsla]; exact hsub
    · show st.excerpts.length = st.source_labels.length
      rw [hex, hsla, hl1]
    · show st.source_text_ids.length = st.source_labels.length
      rw [hids, hsla, hl2]
    · show 1 ≤ st.excerpts.length
      have := List.length_pos.mpr hne
      omega
    · show st.excerpts.length ≤ maxE
      exact hle'
  · intro r
    have ha : r.g r.pos % 3 = 0 ∨ r.g r.pos % 3 = 1 ∨ r.g r.pos % 3 = 2 := by
      omega
    have hb : r.g (r.pos + 1) % 2 = 0 ∨ r.g (r.pos + 1) % 2 = 1 := by
      omega
    rcases ha with h1 | h1 | h1 <;> rcases hb with h2 | h2
    · exact ⟨⟨["fx1", "px1"], ["fraud", "profanity"], ["s1", "s4"],
        ["fraud", "profanity"]⟩, ⟨r.g, r.pos + 1 + 1⟩,
        by simp [sample_one_combination, sampleLoop, bankS,
          ExcerptBank.get_excerpts, choiceD, randBelow, RNG.next, h1, h2,
          fref1, fref2, fref3, pref1, pref2, SampState.initial, List.lookup],
        rfl, rfl⟩
    · exact ⟨⟨["fx1", "px2"], ["fraud", "profanity"], ["s1", "s5"],
        ["fraud", "profanity"]⟩, ⟨r.g, r.pos + 1 + 1⟩,
        by simp [sample_one_combination, sampleLoop, bankS,
          ExcerptBank.get_excerpts, choiceD, randBelow, RNG.next, h1, h2,
          fref1, fref2, fref3, pref1, pref2, SampState.initial, List.lookup],
        rfl, rfl⟩
    · exact ⟨⟨["fx2", "px1"], ["fraud", "profanity"], ["s2", "s4"],
        ["fraud", "profanity"]⟩, ⟨r.g, r.pos + 1 + 1⟩,
        by simp [sample_one_combination, sampleLoop, bankS,
          ExcerptBank.get_excerpts, choiceD, randBelow, RNG.next, h1, h2,
          fref1, fref2, fref3, pref1, pref2, SampState.initial, List.lookup],
        rfl, rfl⟩
    · exact ⟨⟨["fx2", "px2"], ["fraud", "profanity"], ["s2", "s5"],
        ["fraud", "profanity"]⟩, ⟨r.g, r.pos + 1 + 1⟩,
        by simp [sample_one_combination, sampleLoop, bankS,
          ExcerptBank.get_excerpts, choiceD, randBelow, RNG.next, h1, h2,
          fref1, fref2, fref3, pref1, pref2, SampState.initial, List.lookup],
        rfl, rfl⟩
    · exact ⟨⟨["fx3", "px1"], ["fraud", "profanity"], ["s3", "s4"],
        ["fraud", "profanity"]⟩, ⟨r.g, r.pos + 1 + 1⟩,
        by simp [sample_one_combination, sampleLoop, bankS,
          ExcerptBank.get_excerpts, choiceD, randBelow, RNG.next, h1, h2,
          fref1, fref2, fref3, pref1, pref2, SampState.initial, List.lookup],
        rfl, rfl⟩
    · exact ⟨⟨["fx3", "px2"], ["fraud", "profanity"], ["s3", "s5"],
        ["fraud", "profanity"]⟩, ⟨r.g, r.pos + 1 + 1⟩,
        by simp [sample_one_combination, sampleLoop, bankS,
          ExcerptBank.get_excerpts, choiceD, randBelow, RNG.next, h1, h2,
          fref1, fref2, fref3, pref1, pref2, SampState.initial, List.lookup],
        rfl, rfl⟩

/-- C4 witness: the general half at a concrete bank, request and stream. -/
theorem c4_shared_primitive_witness :
    esW.source_labels.Sublist ["fraud"] ∧
    esW.excerpts.length = esW.source_labels.length ∧
    esW.source_text_ids.length = esW.source_labels.length ∧
    1 ≤ esW.excerpts.length ∧ esW.excerpts.length ≤ 3 :=
  c4_shared_primitive.1 bankT ["fraud"] 3 true r0 esW ⟨g0, 1⟩ (by decide) rfl

/-- C3 counterexample: with corpus counts `a:1, b:1, c:10` at the 25th
percentile, the rare labels are exactly `a` and `b`; on the stream `rC`
the first stage draws one rare label (`a`), the coin lands heads, and
the appended "additional" label is `b` — itself a rare label — so the
extra label is not drawn from the non-rare labels only. -/
theorem c3_rare_extra_counterexample :
    rareLabels countsC bankC 25 = ["a", "b"] ∧
    (randint 1 (min 2 (rareLabels countsC bankC 25).length) rC).1 = 1 ∧
    (underOneLabels (rareLabels countsC bankC 25) bankC.list_labels rC).1 =
      ["a", "b"] ∧
    (sample_underrepresented_combinations bankC countsC 1 25 3 true none rC).1 =
      [⟨["xa", "xb"], ["a", "b"], ["sa", "sb"], ["a", "b"]⟩] := by
  have hidx : thresholdIdx 3 25 = 0 := by
    rw [thresholdIdx]
    have h34 : ((3 : ℕ) : ℚ) * 25 / 100 = 3 / 4 := by norm_num
    rw [h34]
    have hfl : ((3 : ℚ) / 4).floor = 0 := by
      show ⌊(3 : ℚ) / 4⌋ = 0
      rw [Int.floor_eq_zero_iff]
      rw [Set.mem_Ico]
      constructor <;> norm_num
    rw [hfl]
    rfl
  have hrare : rareLabels countsC bankC 25 = ["a", "b"] := by
    rw [rareLabels, countsC]
    simp only [List.map_cons, List.map_nil, List.length_cons, List.length_nil,
      thresholdOf, hidx]
    decide
  refine ⟨hrare, by rw [hrare]; decide, by rw [hrare]; decide, ?_⟩
  simp only [sample_underrepresented_combinations, applySeed, hrare]
  decide

/-- C3 (amended): a label is rare iff its supplied count is at or below
the threshold-percentile value and it is present in the bank; each
sample draws 1–2 rare labels without replacement; and when the
remaining pool is nonempty and the coin lands heads, exactly one
additional label is appended, drawn from the available labels minus the
already-selected ones — a pool that can still contain rare labels. -/
theorem c3_underrepresented :
    (∀ (label_counts : List (String × Nat)) (bank : ExcerptBank) (pct : ℚ)
        (l : String),
        l ∈ rareLabels label_counts bank pct ↔
          ∃ c, (l, c) ∈ label_counts ∧
            c ≤ thresholdOf (label_counts.map (·.2)) pct ∧
            l ∈ bank.list_labels) ∧
    (∀ (rare avail : List String) (r : RNG), rare ≠ [] → rare.Nodup →
        ∃ picked extraPart r',
          underOneLabels rare avail r = (picked ++ extraPart, r') ∧
          picked.Nodup ∧ picked ⊆ rare ∧ 1 ≤ picked.length ∧
          picked.length ≤ 2 ∧
          (extraPart = [] ∨
            ∃ x, extraPart = [x] ∧ x ∈ avail ∧ x ∉ picked)) := by
  constructor
  · intro label_counts bank pct l
    simp only [rareLabels, List.mem_map, List.mem_filter]
    constructor
    · rintro ⟨⟨a, c⟩, ⟨hmem, hpred⟩, rfl⟩
      simp only [Bool.and_eq_true, decide_eq_true_eq] at hpred
      exact ⟨c, hmem, hpred.1, by simpa using hpred.2⟩
    · rintro ⟨c, hmem, hthr, hbank⟩
      refine ⟨(l, c), ⟨hmem, ?_⟩, rfl⟩
      simp only [Bool.and_eq_true, decide_eq_true_eq]
      exact ⟨hthr, by simpa using hbank⟩
  · intro rare avail r hne hnd
    have hpos : 0 < rare.length := List.length_pos.mpr hne
    have hm1 : 1 ≤ min 2 rare.length := by omega
    simp only [underOneLabels, randint, randBelow, RNG.next]
    have hred : min 2 rare.length + 1 - 1 = min 2 rare.length := by omega
    rw [hred]
    have hlt : r.g r.pos % min 2 rare.length < min 2 rare.length :=
      Nat.mod_lt _ (by omega)
    obtain ⟨picked, r2, hpk⟩ :
        ∃ p q, sampleK rare "" (1 + r.g r.pos % min 2 rare.length)
          ⟨r.g, r.pos + 1⟩ = (p, q) := ⟨_, _, rfl⟩
    rw [hpk]
    have hnd' : picked.Nodup := by
      have := sampleK_nodup "" (1 + r.g r.pos % min 2 rare.length) rare
        ⟨r.g, r.pos + 1⟩ hnd
      rw [hpk] at this
      exact this
    have hsub : picked ⊆ rare := by
      have := sampleK_subset "" (1 + r.g r.pos % min 2 rare.length) rare
        ⟨r.g, r.pos + 1⟩
      rw [hpk] at this
      exact this
    have hlen : picked.length = 1 + r.g r.pos % min 2 rare.length := by
      have := sampleK_length "" (1 + r.g r.pos % min 2 rare.length) rare
        ⟨r.g, r.pos + 1⟩ (by omega)
      rw [hpk] at this
      exact this
    have hlen1 : 1 ≤ picked.length := by omega
    have hlen2 : picked.length ≤ 2 := by omega
    by_cases hoth : (avail.filter (fun l => !picked.contains l)).isEmpty = true
    · rw [if_pos hoth]
      exact ⟨picked, [], r2, by simp, hnd', hsub, hlen1, hlen2, Or.inl rfl⟩
    · rw [if_neg hoth]
      simp only [coinFlip, RNG.next]
      by_cases hcoin : (r2.g r2.pos % 2 == 1) = true
      · rw [if_pos hcoin]
        have hothne : avail.filter (fun l => !picked.contains l) ≠ [] := by
          intro hc
          rw [hc] at hoth
          exact hoth rfl
        have hx := choiceD_mem (avail.filter (fun l => !picked.contains l))
          "" ⟨r2.g, r2.pos + 1⟩ hothne
        have hxavail := (List.mem_filter.mp hx).1
        have hxnot : (choiceD (avail.filter (fun l => !picked.contains l))
            "" ⟨r2.g, r2.pos + 1⟩).1 ∉ picked := by
          have := (List.mem_filter.mp hx).2
          simpa using this
        exact ⟨picked, [(choiceD (avail.filter (fun l => !picked.contains l))
          "" ⟨r2.g, r2.pos + 1⟩).1], _, rfl, hnd', hsub, hlen1, hlen2,
          Or.inr ⟨_, rfl, hxavail, hxnot⟩⟩
      · rw [if_neg hcoin]
        exact ⟨picked, [], ⟨r2.g, r2.pos + 1⟩, by simp, hnd', hsub, hlen1, hlen2,
          Or.inl rfl⟩

/-- C3 witness: the amended statement at the concrete rare set, bank
labels and stream of the counterexample. -/
theorem c3_underrepresented_witness :
    ∃ picked extraPart r',
      underOneLabels ["a", "b"] ["a", "b", "c"] rC = (picked ++ extraPart, r') ∧
      picked.Nodup ∧ picked ⊆ ["a", "b"] ∧ 1 ≤ picked.length ∧
      picked.length ≤ 2 ∧
      (extraPart = [] ∨ ∃ x, extraPart = [x] ∧ x ∈ ["a", "b", "c"] ∧ x ∉ picked) :=
  c3_underrepresented.2 ["a", "b"] ["a", "b", "c"] rC (by decide) (by decide)
